import Mathlib

/- Shallow embedding of the multi-format stack-trace parser and the log
analyzer implemented in
src/icartsh-plugin/skills/error-detective/scripts/debug_helper.py.

The regular expressions in StackTraceParser.PATTERNS and LogAnalyzer are
concrete enough that each re.match or re.search call is modelled by a
hand-written deterministic matcher over List Char, reproducing leftmost,
greedy-with-backtracking semantics of the particular pattern (ASCII model
of the classes w, s, d; the token dot matching every character except a
newline). -/

/-- Character class for the regex token w (ASCII model). -/
def isWordChar (c : Char) : Bool := c.isAlphanum || c = '_'

/-- Character class for the regex token s (ASCII model). -/
def isSpaceChar (c : Char) : Bool :=
  c = ' ' || c = '\t' || c = '\n' || c = '\r' || c = '\x0b' || c = '\x0c'

/-- Character class for the regex token d (ASCII model). -/
def isDigitChar (c : Char) : Bool := c.isDigit

/-- Word-or-dot class of the java patterns. -/
def isWordDotChar (c : Char) : Bool := isWordChar c || c = '.'

/-- Greedy span: longest prefix satisfying p, and the remainder. -/
def spanP (p : Char → Bool) : List Char → List Char × List Char
  | [] => ([], [])
  | c :: cs =>
    if p c then
      let r := spanP p cs
      (c :: r.1, r.2)
    else ([], c :: cs)

/-- Match a literal prefix, returning the remainder after it. -/
def stripPrefixChars : List Char → List Char → Option (List Char)
  | [], cs => some cs
  | _ :: _, [] => none
  | p :: ps, c :: cs => if c = p then stripPrefixChars ps cs else none

/-- Value of a digit run, as the int() conversion computes it. -/
def digitsVal (ds : List Char) : Nat := ds.foldl (fun a c => 10 * a + (c.toNat - 48)) 0

/-- Greedy digit group: maximal d+ run with its value and the remainder. -/
def takeDigits (cs : List Char) : Option (Nat × List Char) :=
  let p := spanP isDigitChar cs
  if p.1.isEmpty then none else some (digitsVal p.1, p.2)

/-- Greedy trailing dot-plus group: one or more non-newline characters. -/
def dotPlusCapture (cs : List Char) : Option String :=
  let p := spanP (fun c => c != '\n') cs
  if p.1.isEmpty then none else some (String.mk p.1)

/-- Test that s is a proper suffix of w, which decides whether the
backtracking split of a word run against a required suffix alternative
succeeds. -/
def endsWithP (w s : List Char) : Bool :=
  decide (s.length < w.length) && decide (w.drop (w.length - s.length) = s)

/-- Shared shape of the python error_line, javascript error_line and java
exception_line patterns: a word-class run that must properly end in one of
the given suffixes, then a colon and space, then a nonempty message. The
run is maximal because the colon is outside the word class. -/
def typeMsgMatch (wc : Char → Bool) (sufs : List (List Char)) (cs : List Char) :
    Option (String × String) :=
  let p := spanP wc cs
  if p.1.isEmpty then none
  else if sufs.any (fun s => endsWithP p.1 s) then
    match stripPrefixChars ": ".data p.2 with
    | some r2 =>
      match dotPlusCapture r2 with
      | some m => some (String.mk p.1, m)
      | none => none
    | none => none
  else none

/- Data model: one structure per record kind, with optional fields standing
for dict keys that only some languages set. -/

/-- One parsed stack frame; line and column carry the int() values. -/
structure StackFrame where
  file : String
  line : Int
  func : Option String
  column : Option Int
  method : Option String
  code : Option String
  deriving Repr, DecidableEq

/-- One chained-cause entry of a java trace. -/
structure CausedBy where
  ctype : String
  cmessage : String
  deriving Repr, DecidableEq

/-- One parsed trace record. -/
structure TraceRecord where
  language : String
  error_type : Option String
  error_message : Option String
  stack : List StackFrame
  caused_by : List CausedBy
  deriving Repr, DecidableEq

/- Python patterns. -/

/-- Literal start marker of PATTERNS python traceback_start. -/
def pyStartLit : List Char := "Traceback (most recent call last):".data

/-- re.match of the python traceback_start pattern (a literal prefix). -/
def pyTracebackStart (l : String) : Bool := (stripPrefixChars pyStartLit l.data).isSome

/-- re.match of the python file_line pattern, returning the groups
(file, line, function). -/
def pyFileLine (l : String) : Option (String × Nat × String) :=
  let sp := spanP isSpaceChar l.data
  if sp.1.isEmpty then none else
  match stripPrefixChars "File \"".data sp.2 with
  | none => none
  | some r2 =>
    let fp := spanP (fun c => c != '"') r2
    if fp.1.isEmpty then none else
    match stripPrefixChars "\", line ".data fp.2 with
    | none => none
    | some r4 =>
      match takeDigits r4 with
      | none => none
      | some (n, r5) =>
        match stripPrefixChars ", in ".data r5 with
        | none => none
        | some r6 =>
          match dotPlusCapture r6 with
          | some f => some (String.mk fp.1, n, f)
          | none => none

/-- re.match of the python error_line pattern. -/
def pyErrorLine (l : String) : Option (String × String) :=
  typeMsgMatch isWordChar ["Error".data, "Exception".data, "Warning".data] l.data

/- JavaScript patterns. -/

/-- re.match of the javascript error_line pattern. -/
def jsErrorLine (l : String) : Option (String × String) :=
  typeMsgMatch isWordChar ["Error".data] l.data

/-- Deterministic tail of the javascript at_line pattern after the opening
parenthesis: a nonempty colon-free file group, a colon, digits, a colon,
digits and a closing parenthesis; trailing characters are allowed because
re.match does not anchor the end. -/
def jsLocParse (cs : List Char) : Option (String × Nat × Nat) :=
  let fp := spanP (fun c => c != ':') cs
  if fp.1.isEmpty then none else
  match fp.2 with
  | ':' :: r2 =>
    match takeDigits r2 with
    | some (ln, ':' :: r3) =>
      match takeDigits r3 with
      | some (col, ')' :: _) => some (String.mk fp.1, ln, col)
      | _ => none
    | _ => none
  | _ => none

/-- Backtracking search for the split of the javascript at_line pattern:
the greedy dot-plus group prefers the rightmost space-parenthesis pair
whose tail parses, and cannot run across a newline. Returns the group-one
characters before the split together with the parsed location. -/
def jsAtSplit : List Char → Option (List Char × (String × Nat × Nat))
  | [] => none
  | c :: rest =>
    if c = '\n' then none
    else
      match jsAtSplit rest with
      | some (pre, loc) => some (c :: pre, loc)
      | none =>
        match c, rest with
        | ' ', '(' :: r2 =>
          match jsLocParse r2 with
          | some loc => some ([], loc)
          | none => none
        | _, _ => none

/-- re.match of the javascript at_line pattern, returning the groups
(function, file, line, column). -/
def jsAtLine (l : String) : Option (String × String × Nat × Nat) :=
  let sp := spanP isSpaceChar l.data
  if sp.1.isEmpty then none else
  match stripPrefixChars "at ".data sp.2 with
  | none => none
  | some r2 =>
    match jsAtSplit r2 with
    | some (pre, (f, ln, col)) =>
      if pre.isEmpty then none else some (String.mk pre, f, ln, col)
    | none => none

/-- re.match of the javascript at_line_simple pattern, returning the groups
(file, line, column). -/
def jsAtSimple (l : String) : Option (String × Nat × Nat) :=
  let sp := spanP isSpaceChar l.data
  if sp.1.isEmpty then none else
  match stripPrefixChars "at ".data sp.2 with
  | none => none
  | some r2 =>
    let fp := spanP (fun c => c != ':') r2
    if fp.1.isEmpty then none else
    match fp.2 with
    | ':' :: r3 =>
      match takeDigits r3 with
      | some (ln, ':' :: r4) =>
        match takeDigits r4 with
        | some (col, _) => some (String.mk fp.1, ln, col)
        | none => none
      | _ => none
    | _ => none

/- Java patterns. -/

/-- re.match of the java exception_line pattern. -/
def javaExceptionLine (l : String) : Option (String × String) :=
  typeMsgMatch isWordDotChar ["Exception".data, "Error".data] l.data

/-- re.match of the java at_line pattern, returning the groups
(method, file, line). -/
def javaAtLine (l : String) : Option (String × String × Nat) :=
  let sp := spanP isSpaceChar l.data
  if sp.1.isEmpty then none else
  match stripPrefixChars "at ".data sp.2 with
  | none => none
  | some r2 =>
    let mp := spanP (fun c => isWordDotChar c || c = '$') r2
    if mp.1.isEmpty then none else
    match mp.2 with
    | '(' :: r4 =>
      let fp := spanP (fun c => c != ':') r4
      if fp.1.isEmpty then none else
      match fp.2 with
      | ':' :: r6 =>
        match takeDigits r6 with
        | some (n, ')' :: _) => some (String.mk mp.1, String.mk fp.1, n)
        | _ => none
      | _ => none
    | _ => none

/-- re.match of the java caused_by pattern, returning the groups
(type, message). -/
def javaCausedBy (l : String) : Option (String × String) :=
  match stripPrefixChars "Caused by: ".data l.data with
  | none => none
  | some r => typeMsgMatch isWordDotChar ["Exception".data, "Error".data] r

/- Go patterns. -/

/-- re.match of the go panic_line pattern. -/
def goPanicLine (l : String) : Option String :=
  match stripPrefixChars "panic: ".data l.data with
  | none => none
  | some r => dotPlusCapture r

/-- Search for a close-bracket colon pair reachable without crossing a
newline, deciding the dot-plus bracket body of the goroutine pattern. -/
def seekCloseColon : List Char → Bool
  | ']' :: ':' :: _ => true
  | c :: rest => c != '\n' && seekCloseColon rest
  | [] => false

/-- re.match of the go goroutine header pattern. -/
def goroutineMatch (l : String) : Bool :=
  match stripPrefixChars "goroutine ".data l.data with
  | none => false
  | some r =>
    match takeDigits r with
    | some (_, ' ' :: '[' :: b :: r2) => b != '\n' && seekCloseColon r2
    | _ => false

/-- Search for a closing parenthesis reachable without crossing a newline,
deciding the dot-star tail of the go file_line pattern. -/
def hasParenClose : List Char → Bool
  | ')' :: _ => true
  | c :: rest => c != '\n' && hasParenClose rest
  | [] => false

/-- Backtracking search for the split of the go file_line pattern: the
greedy dot-plus group prefers the rightmost opening parenthesis that still
has a closing parenthesis after it, and cannot run across a newline.
Returns the group-one characters before the parenthesis. -/
def goFileSplit : List Char → Option (List Char)
  | [] => none
  | c :: rest =>
    if c = '\n' then none
    else
      match goFileSplit rest with
      | some pre => some (c :: pre)
      | none =>
        match c, rest with
        | '(', r2 => if hasParenClose r2 then some [] else none
        | _, _ => none

/-- re.match of the go file_line pattern, returning the function group. -/
def goFileLine (l : String) : Option String :=
  match l.data with
  | [] => none
  | c :: rest =>
    if c = '\n' then none
    else
      match goFileSplit rest with
      | some pre => some (String.mk (c :: pre))
      | none => none

/-- re.match of the go location pattern. The file group is the run from
the end of the whitespace prefix to the first colon; when the first colon
sits immediately after the whitespace run, the engine backtracks one
whitespace character into the group. -/
def goLocation (l : String) : Option (String × Nat) :=
  let sp := spanP isSpaceChar l.data
  match sp.1, sp.2 with
  | [], _ => none
  | _ :: stail, ':' :: r2 =>
    if stail.isEmpty then none
    else
      match (sp.1).getLast? with
      | some wc =>
        match takeDigits r2 with
        | some (n, _) => some (String.mk [wc], n)
        | none => none
      | none => none
  | _ :: _, r1 =>
    let fp := spanP (fun c => c != ':') r1
    if fp.1.isEmpty then none else
    match fp.2 with
    | ':' :: r3 =>
      match takeDigits r3 with
      | some (n, _) => some (String.mk fp.1, n)
      | none => none
    | _ => none

/- Helper mirroring the str.strip() call on the snippet line. -/

/-- Python str.strip() with the default whitespace set. -/
def pyStrip (s : String) : String :=
  String.mk (((s.data.dropWhile isSpaceChar).reverse.dropWhile isSpaceChar).reverse)

/- The four scanners. Each is the state machine of the corresponding
_parse_* method: one forward pass; the Searching state looks for the start
pattern; the InFrames state accumulates frames; the line on which the frame
loop breaks is consumed by the outer i += 1 before searching resumes. -/

/-- Scanner state of _parse_python. -/
inductive PyMode
  | searching
  | inFrames (stack : List StackFrame)

/-- State machine of _parse_python: a start line opens a record; a frame
declaration line consumes the following line as its snippet; the run ends
at the first non-frame line, which emits the record exactly when it
matches the error_line trailer. -/
def pyGo : List String → PyMode → List TraceRecord
  | [], _ => []
  | l :: rest, .searching =>
    if pyTracebackStart l then pyGo rest (.inFrames []) else pyGo rest .searching
  | l :: rest, .inFrames stack =>
    match pyFileLine l with
    | some (f, n, fn) =>
      match rest with
      | l2 :: rest2 =>
        pyGo rest2 (.inFrames (stack ++ [⟨f, (n : Int), some fn, none, none, some (pyStrip l2)⟩]))
      | [] => []
    | none =>
      match pyErrorLine l with
      | some (t, m) => ⟨"python", some t, some m, stack, []⟩ :: pyGo rest .searching
      | none => pyGo rest .searching

/-- StackTraceParser._parse_python on a line sequence. -/
def parse_python (ls : List String) : List TraceRecord := pyGo ls .searching

/-- Scanner state of _parse_javascript. -/
inductive JsMode
  | searching
  | inFrames (etype emsg : String) (stack : List StackFrame)

/-- State machine of _parse_javascript: an error line opens a record; frame
lines are matched against at_line then at_line_simple; the record is kept
only when at least one frame was captured. -/
def jsGo : List String → JsMode → List TraceRecord
  | [], .searching => []
  | [], .inFrames t m stack =>
    if stack.isEmpty then [] else [⟨"javascript", some t, some m, stack, []⟩]
  | l :: rest, .searching =>
    match jsErrorLine l with
    | some (t, m) => jsGo rest (.inFrames t m [])
    | none => jsGo rest .searching
  | l :: rest, .inFrames t m stack =>
    match jsAtLine l with
    | some (fn, f, ln, col) =>
      jsGo rest (.inFrames t m (stack ++ [⟨f, (ln : Int), some fn, some (col : Int), none, none⟩]))
    | none =>
      match jsAtSimple l with
      | some (f, ln, col) =>
        jsGo rest (.inFrames t m (stack ++ [⟨f, (ln : Int), none, some (col : Int), none, none⟩]))
      | none =>
        (if stack.isEmpty then [] else [⟨"javascript", some t, some m, stack, []⟩])
          ++ jsGo rest .searching

/-- StackTraceParser._parse_javascript on a line sequence. -/
def parse_javascript (ls : List String) : List TraceRecord := jsGo ls .searching

/-- Scanner state of _parse_java. -/
inductive JavaMode
  | searching
  | inFrames (etype emsg : String) (stack : List StackFrame) (causes : List CausedBy)

/-- State machine of _parse_java: an exception line opens a record; frame
lines are matched against at_line then caused_by; the record is always
emitted when the run ends. -/
def javaGo : List String → JavaMode → List TraceRecord
  | [], .searching => []
  | [], .inFrames t m stack causes => [⟨"java", some t, some m, stack, causes⟩]
  | l :: rest, .searching =>
    match javaExceptionLine l with
    | some (t, m) => javaGo rest (.inFrames t m [] [])
    | none => javaGo rest .searching
  | l :: rest, .inFrames t m stack causes =>
    match javaAtLine l with
    | some (mth, f, n) =>
      javaGo rest (.inFrames t m (stack ++ [⟨f, (n : Int), none, none, some mth, none⟩]) causes)
    | none =>
      match javaCausedBy l with
      | some (ct, cm) => javaGo rest (.inFrames t m stack (causes ++ [⟨ct, cm⟩]))
      | none => ⟨"java", some t, some m, stack, causes⟩ :: javaGo rest .searching

/-- StackTraceParser._parse_java on a line sequence. -/
def parse_java (ls : List String) : List TraceRecord := javaGo ls .searching

/-- Scanner state of _parse_go. The pending component holds the function
group of a just-consumed file line whose follower is still to be tested
against the location pattern, so that each step consumes exactly one
line. -/
inductive GoMode
  | searching
  | inFrames (emsg : String) (stack : List StackFrame) (pending : Option String)

/-- State machine of _parse_go: a panic line opens a record; a goroutine
header is skipped; a file line followed by a matching location line yields
a frame; a file line whose follower is not a location advances one line
and the follower is examined afresh; any other line is skipped while the
stack is empty and ends the run once a frame was captured; the record is
kept only with at least one frame. -/
def goGo : List String → GoMode → List TraceRecord
  | [], .searching => []
  | [], .inFrames m stack _ =>
    if stack.isEmpty then [] else [⟨"go", none, some m, stack, []⟩]
  | l :: rest, .searching =>
    match goPanicLine l with
    | some m => goGo rest (.inFrames m [] none)
    | none => goGo rest .searching
  | l :: rest, .inFrames m stack pending =>
    match pending, goLocation l with
    | some fn, some (f, n) =>
      goGo rest (.inFrames m (stack ++ [⟨f, (n : Int), some fn, none, none, none⟩]) none)
    | _, _ =>
      if goroutineMatch l then goGo rest (.inFrames m stack none)
      else
        match goFileLine l with
        | some fn2 => goGo rest (.inFrames m stack (some fn2))
        | none =>
          if stack.isEmpty then goGo rest (.inFrames m stack none)
          else ⟨"go", none, some m, stack, []⟩ :: goGo rest .searching

/-- StackTraceParser._parse_go on a line sequence. -/
def parse_go (ls : List String) : List TraceRecord := goGo ls .searching

/- parse_text: run the scanners in the fixed PATTERNS order and
concatenate. -/

/-- StackTraceParser.parse_text on an already split line sequence. -/
def parse_text_lines (ls : List String) : List TraceRecord :=
  parse_python ls ++ parse_javascript ls ++ parse_java ls ++ parse_go ls

/-- Accumulator form of the str.split newline splitting. -/
def splitNlAux (cur : List Char) : List Char → List String
  | [] => [String.mk cur.reverse]
  | '\n' :: rest => String.mk cur.reverse :: splitNlAux [] rest
  | c :: rest => splitNlAux (c :: cur) rest

/-- text.split with the newline separator, as the scanners apply it. -/
def splitNl (cs : List Char) : List String := splitNlAux [] cs

/-- StackTraceParser.parse_text on raw text. -/
def parse_text (s : String) : List TraceRecord := parse_text_lines (splitNl s.data)

/- LogAnalyzer. The file-reading boundary is out of scope, so the model
takes the sequence of lines that analyze_file iterates over. -/

/-- Case-insensitive literal match at the head (the needle is written in
upper case, as the severity tokens of the patterns are). -/
def litAtCI : List Char → List Char → Bool
  | [], _ => true
  | n :: ns, c :: cs => c.toUpper = n && litAtCI ns cs
  | _ :: _, [] => false

/-- re.search of a case-insensitive literal alternation member. -/
def containsCI (hay needle : List Char) : Bool :=
  match hay with
  | [] => litAtCI needle []
  | c :: t => litAtCI needle (c :: t) || containsCI t needle

/-- Case-sensitive literal match at the head. -/
def litAt : List Char → List Char → Bool
  | [], _ => true
  | n :: ns, c :: cs => c = n && litAt ns cs
  | _ :: _, [] => false

/-- Python substring containment, as the custom pattern test uses it. -/
def containsSub (hay needle : List Char) : Bool :=
  match hay with
  | [] => litAt needle []
  | c :: t => litAt needle (c :: t) || containsSub t needle

/-- Match of the error severity pattern of LogAnalyzer.analyze_file. -/
def error_search (l : String) : Bool :=
  containsCI l.data "ERROR".data || containsCI l.data "CRITICAL".data ||
    containsCI l.data "FATAL".data

/-- Match of the warning severity pattern of LogAnalyzer.analyze_file. -/
def warning_search (l : String) : Bool := containsCI l.data "WARN".data

/-- Shape test of the timestamp pattern at the head of a character list:
four digits, dash, two digits, dash, two digits, a T or whitespace
separator, then a colon-separated six-digit clock. -/
def tsShapeOk (cs : List Char) : Bool :=
  match cs with
  | y1 :: y2 :: y3 :: y4 :: d1 :: m1 :: m2 :: d2 :: a1 :: a2 :: sep ::
      h1 :: h2 :: c1 :: n1 :: n2 :: c2 :: s1 :: s2 :: _ =>
    [y1, y2, y3, y4, m1, m2, a1, a2, h1, h2, n1, n2, s1, s2].all isDigitChar &&
      d1 = '-' && d2 = '-' && c1 = ':' && c2 = ':' && (sep = 'T' || isSpaceChar sep)
  | _ => false

/-- re.search of the timestamp pattern: the leftmost match, as group()
returns it. -/
def tsSearch : List Char → Option String
  | [] => none
  | c :: rest =>
    if tsShapeOk (c :: rest) then some (String.mk ((c :: rest).take 19))
    else tsSearch rest

/-- Length consumed by the timestamp removal pattern at the head: the
nineteen fixed characters plus the greedy run of dots, commas and
digits. -/
def tsLen (cs : List Char) : Option Nat :=
  if tsShapeOk cs then
    some (19 + ((cs.drop 19).takeWhile (fun c => isDigitChar c || c = '.' || c = ',')).length)
  else none

/-- Single left-to-right pass of the timestamp re.sub; skip counts the
remaining characters of a match being deleted. -/
def subTsGo (skip : Nat) (cs : List Char) : List Char :=
  match cs, skip with
  | [], _ => []
  | _ :: rest, k + 1 => subTsGo k rest
  | c :: rest, 0 =>
    match tsLen (c :: rest) with
    | some n => subTsGo (n - 1) rest
    | none => c :: subTsGo 0 rest

/-- Timestamp removal step of _extract_error_message. -/
def subTimestamps (cs : List Char) : List Char := subTsGo 0 cs

/-- Word-boundary test on the continuation after a matched severity
literal. -/
def boundaryOk : List Char → Bool
  | [] => true
  | c :: _ => !(isWordChar c)

/-- Severity literals in the alternation order of the log level pattern,
with the greedy optional ING tried before the bare WARN. -/
def levelLits : List (List Char) :=
  ["ERROR".data, "WARNING".data, "WARN".data, "INFO".data, "DEBUG".data,
    "CRITICAL".data, "FATAL".data]

/-- Match length of one severity literal at the head, including the
trailing word boundary. -/
def tryLit (lit cs : List Char) : Option Nat :=
  if litAtCI lit cs && boundaryOk (cs.drop lit.length) then some lit.length else none

/-- First severity literal matching at the head, in alternation order. -/
def tryLits : List (List Char) → List Char → Option Nat
  | [], _ => none
  | lit :: ls, cs =>
    match tryLit lit cs with
    | some n => some n
    | none => tryLits ls cs

/-- Match length of the log level pattern at the head. -/
def tryLevelAt (cs : List Char) : Option Nat := tryLits levelLits cs

/-- Single left-to-right pass of the log level re.sub; prevWord tracks the
word boundary before the current position, and skip counts the remaining
characters of a match being deleted. -/
def subLvGo (prevWord : Bool) (skip : Nat) (cs : List Char) : List Char :=
  match cs, skip with
  | [], _ => []
  | _ :: rest, k + 1 => subLvGo true k rest
  | c :: rest, 0 =>
    if prevWord then c :: subLvGo (isWordChar c) 0 rest
    else
      match tryLevelAt (c :: rest) with
      | some n => subLvGo true (n - 1) rest
      | none => c :: subLvGo (isWordChar c) 0 rest

/-- Log level removal step of _extract_error_message. -/
def subLevels (cs : List Char) : List Char := subLvGo false 0 cs

/-- Match length of the bracketed logger name pattern at the head. -/
def loggerLen (cs : List Char) : Option Nat :=
  match cs with
  | '[' :: rest =>
    let wp := spanP isWordDotChar rest
    match wp.1, wp.2 with
    | _ :: _, ']' :: _ => some (wp.1.length + 2)
    | _, _ => none
  | _ => none

/-- Single left-to-right pass of the logger name re.sub. -/
def subLogGo (skip : Nat) (cs : List Char) : List Char :=
  match cs, skip with
  | [], _ => []
  | _ :: rest, k + 1 => subLogGo k rest
  | c :: rest, 0 =>
    match loggerLen (c :: rest) with
    | some n => subLogGo (n - 1) rest
    | none => c :: subLogGo 0 rest

/-- Logger name removal step of _extract_error_message. -/
def subLogger (cs : List Char) : List Char := subLogGo 0 cs

/-- Membership in the separator set of the final strip call. -/
def isSepChar (c : Char) : Bool := c = ' ' || c = ':' || c = '|' || c = '-'

/-- Python str.strip with the separator set. -/
def stripSeps (cs : List Char) : List Char :=
  ((cs.dropWhile isSepChar).reverse.dropWhile isSepChar).reverse

/-- LogAnalyzer._extract_error_message: remove timestamps, severity
tokens and logger names, strip separators, truncate to one hundred
characters. -/
def extract_error_message (l : String) : String :=
  String.mk ((stripSeps (subLogger (subLevels (subTimestamps l.data)))).take 100)

/-- Counter increment of a defaultdict(int), preserving insertion
order. -/
def incr (m : List (String × Nat)) (k : String) : List (String × Nat) :=
  match m with
  | [] => [(k, 1)]
  | (k2, v) :: t => if k2 = k then (k2, v + 1) :: t else (k2, v) :: incr t k

/-- Result of LogAnalyzer.analyze_file; the patterns mapping is keyed by
the single optional custom pattern, so its entries are listed directly. -/
structure LogAnalysis where
  total_lines : Nat
  errors : List (String × Nat)
  warnings : List (String × Nat)
  pattern_hits : List (Nat × String)
  timestamps : List String
  deriving Repr, DecidableEq

/-- Line loop of LogAnalyzer.analyze_file, carrying the accumulators and
the one-based line number. -/
def analyzeLoop (pat : Option String) (i : Nat) (errs warns : List (String × Nat))
    (hits : List (Nat × String)) (tss : List String) :
    List String → List (String × Nat) × List (String × Nat) × List (Nat × String) × List String
  | [] => (errs, warns, hits, tss)
  | l :: rest =>
    let errs2 := if error_search l then incr errs (extract_error_message l) else errs
    let warns2 := if warning_search l then incr warns (extract_error_message l) else warns
    let tss2 :=
      match tsSearch l.data with
      | some t => tss ++ [t]
      | none => tss
    let hits2 :=
      match pat with
      | some p => if containsSub l.data p.data then hits ++ [(i, pyStrip l)] else hits
      | none => hits
    analyzeLoop pat (i + 1) errs2 warns2 hits2 tss2 rest

/-- LogAnalyzer.analyze_file on the line sequence the reading boundary
delivers. -/
def analyze_file_lines (lines : List String) (pat : Option String) : LogAnalysis :=
  let r := analyzeLoop pat 1 [] [] [] [] lines
  ⟨lines.length, r.1, r.2.1, r.2.2.1, r.2.2.2⟩

/-- Sum of the values of a counter mapping. -/
def sumVals (m : List (String × Nat)) : Nat := (m.map Prod.snd).sum

/-- Statement that every frame of a list carries a nonnegative line
number. -/
def framesNonneg (s : List StackFrame) : Prop := ∀ f ∈ s, 0 ≤ f.line

/-- Line on which the python frame loop ends, skipping two-line frame
groups exactly as the loop consumes them: none when the run ends by
exhausting the input, otherwise the first line that is not a frame
declaration. -/
def pyLoopEnd : List String → Option String
  | [] => none
  | [l] => if (pyFileLine l).isSome then none else some l
  | l :: _ :: rest2 => if (pyFileLine l).isSome then pyLoopEnd rest2 else some l

/- Helper lemmas about the matcher combinators. -/

theorem spanP_break (p : Char → Bool) (a : List Char) (b : Char) (r : List Char)
    (h1 : ∀ c ∈ a, p c = true) (h2 : p b = false) :
    spanP p (a ++ b :: r) = (a, b :: r) := by
  induction a with
  | nil => simp [spanP, h2]
  | cons c t ih =>
    have hc : p c = true := h1 c (by simp)
    simp only [List.cons_append, spanP, hc, if_true, List.append_eq]
    rw [ih (fun x hx => h1 x (by simp [hx]))]

theorem stripPrefixChars_some (p : List Char) :
    ∀ cs r, stripPrefixChars p cs = some r → cs = p ++ r := by
  induction p with
  | nil => intro cs r h; simpa [stripPrefixChars] using h
  | cons a t ih =>
    intro cs r h
    match cs with
    | [] => simp [stripPrefixChars] at h
    | c :: cs2 =>
      simp only [stripPrefixChars] at h
      split at h
      · next heq => simp [heq, ih cs2 r h]
      · exact absurd h (by simp)

theorem spanP_head_of_ne_nil (p : Char → Bool) (cs : List Char)
    (h : (spanP p cs).1.isEmpty = false) : ∃ c t, cs = c :: t ∧ p c = true := by
  match cs with
  | [] => simp [spanP] at h
  | c :: t =>
    cases hc : p c with
    | true => exact ⟨c, t, rfl, hc⟩
    | false => simp [spanP, hc] at h

theorem typeMsgMatch_head (wc : Char → Bool) (sufs : List (List Char)) (cs : List Char)
    (x : String × String) (h : typeMsgMatch wc sufs cs = some x) :
    ∃ c t, cs = c :: t ∧ wc c = true := by
  simp only [typeMsgMatch] at h
  cases he : (spanP wc cs).1.isEmpty with
  | true => rw [he] at h; simp at h
  | false => exact spanP_head_of_ne_nil wc cs he

/- Lines matching one start pattern cannot match selected others; these
facts drive the cross-scanner reasoning below. -/

theorem pyTracebackStart_data (l : String) (h : pyTracebackStart l = true) :
    ∃ r, l.data = pyStartLit ++ r := by
  simp only [pyTracebackStart, Option.isSome_iff_exists] at h
  obtain ⟨r, hr⟩ := h
  exact ⟨r, stripPrefixChars_some _ _ _ hr⟩

theorem spanP_word_traceback (wc : Char → Bool) (r : List Char)
    (hword : ∀ c ∈ "Traceback".data, wc c = true) (hsp : wc ' ' = false) :
    spanP wc (pyStartLit ++ r) = ("Traceback".data, ' ' :: ("(most recent call last):".data ++ r)) := by
  have he : pyStartLit ++ r =
      "Traceback".data ++ ' ' :: ("(most recent call last):".data ++ r) := rfl
  rw [he]
  exact spanP_break wc _ ' ' _ hword hsp

theorem javaExc_none_of_traceback (l : String) (h : pyTracebackStart l = true) :
    javaExceptionLine l = none := by
  obtain ⟨r, hr⟩ := pyTracebackStart_data l h
  simp only [javaExceptionLine, typeMsgMatch, hr]
  rw [spanP_word_traceback isWordDotChar r (by decide) (by decide)]
  have h1 : (("Traceback".data : List Char)).isEmpty = false := by decide
  have h2 : endsWithP "Traceback".data "Exception".data = false := by decide
  have h3 : endsWithP "Traceback".data "Error".data = false := by decide
  simp [h1, h2, h3]

theorem pyError_none_of_traceback (l : String) (h : pyTracebackStart l = true) :
    pyErrorLine l = none := by
  obtain ⟨r, hr⟩ := pyTracebackStart_data l h
  simp only [pyErrorLine, typeMsgMatch, hr]
  rw [spanP_word_traceback isWordChar r (by decide) (by decide)]
  have h1 : (("Traceback".data : List Char)).isEmpty = false := by decide
  have h2 : endsWithP "Traceback".data "Error".data = false := by decide
  have h3 : endsWithP "Traceback".data "Exception".data = false := by decide
  have h4 : endsWithP "Traceback".data "Warning".data = false := by decide
  simp [h1, h2, h3, h4]

theorem goPanicLine_data (l : String) (m : String) (h : goPanicLine l = some m) :
    ∃ r, l.data = "panic: ".data ++ r := by
  simp only [goPanicLine] at h
  cases hs : stripPrefixChars "panic: ".data l.data with
  | none => rw [hs] at h; simp at h
  | some r => exact ⟨r, stripPrefixChars_some _ _ _ hs⟩

theorem javaExc_none_of_panic (l : String) (m : String) (h : goPanicLine l = some m) :
    javaExceptionLine l = none := by
  obtain ⟨r, hr⟩ := goPanicLine_data l m h
  have he : ("panic: ".data : List Char) ++ r = "panic".data ++ ':' :: (' ' :: r) := rfl
  simp only [javaExceptionLine, typeMsgMatch, hr, he]
  rw [spanP_break isWordDotChar "panic".data ':' (' ' :: r) (by decide) (by decide)]
  have h1 : (("panic".data : List Char)).isEmpty = false := by decide
  have h2 : endsWithP "panic".data "Exception".data = false := by decide
  have h3 : endsWithP "panic".data "Error".data = false := by decide
  simp [h1, h2, h3]

theorem javaCausedBy_data (l : String) (x : String × String) (h : javaCausedBy l = some x) :
    ∃ r, l.data = "Caused by: ".data ++ r := by
  simp only [javaCausedBy] at h
  cases hs : stripPrefixChars "Caused by: ".data l.data with
  | none => rw [hs] at h; simp at h
  | some r => exact ⟨r, stripPrefixChars_some _ _ _ hs⟩

/- Non-match facts for lines whose first character is known. -/

theorem jsAtLine_none_of_head (l : String) (c : Char) (t : List Char)
    (hd : l.data = c :: t) (hc : isSpaceChar c = false) : jsAtLine l = none := by
  simp [jsAtLine, hd, spanP, hc]

theorem jsAtSimple_none_of_head (l : String) (c : Char) (t : List Char)
    (hd : l.data = c :: t) (hc : isSpaceChar c = false) : jsAtSimple l = none := by
  simp [jsAtSimple, hd, spanP, hc]

theorem javaAtLine_none_of_head (l : String) (c : Char) (t : List Char)
    (hd : l.data = c :: t) (hc : isSpaceChar c = false) : javaAtLine l = none := by
  simp [javaAtLine, hd, spanP, hc]

theorem pyFileLine_none_of_head (l : String) (c : Char) (t : List Char)
    (hd : l.data = c :: t) (hc : isSpaceChar c = false) : pyFileLine l = none := by
  simp [pyFileLine, hd, spanP, hc]

theorem pyTracebackStart_false_of_head (l : String) (c : Char) (t : List Char)
    (hd : l.data = c :: t) (hc : ¬ c = 'T') : pyTracebackStart l = false := by
  have he : pyStartLit = 'T' :: "raceback (most recent call last):".data := rfl
  simp [pyTracebackStart, hd, he, stripPrefixChars, hc]

theorem goPanicLine_none_of_head (l : String) (c : Char) (t : List Char)
    (hd : l.data = c :: t) (hc : ¬ c = 'p') : goPanicLine l = none := by
  have he : ("panic: ".data : List Char) = 'p' :: "anic: ".data := rfl
  simp [goPanicLine, hd, he, stripPrefixChars, hc]

theorem typeMsgMatch_head_of_some (wc : Char → Bool) (sufs : List (List Char))
    (l : String) (x : String × String) (h : typeMsgMatch wc sufs l.data = some x) :
    ∃ c t, l.data = c :: t ∧ wc c = true :=
  typeMsgMatch_head wc sufs l.data x h

/- No-start lemmas: a scanner that never sees a start line emits nothing. -/

theorem pyGo_searching_nil (ls : List String) (h : ∀ l ∈ ls, pyTracebackStart l = false) :
    pyGo ls .searching = [] := by
  induction ls with
  | nil => rfl
  | cons l rest ih =>
    have h0 := h l (by simp)
    simp only [pyGo, h0, Bool.false_eq_true, if_false]
    exact ih (fun x hx => h x (by simp [hx]))

theorem jsGo_searching_nil (ls : List String) (h : ∀ l ∈ ls, jsErrorLine l = none) :
    jsGo ls .searching = [] := by
  induction ls with
  | nil => rfl
  | cons l rest ih =>
    have h0 := h l (by simp)
    simp only [jsGo, h0]
    exact ih (fun x hx => h x (by simp [hx]))

theorem javaGo_searching_nil (ls : List String) (h : ∀ l ∈ ls, javaExceptionLine l = none) :
    javaGo ls .searching = [] := by
  induction ls with
  | nil => rfl
  | cons l rest ih =>
    have h0 := h l (by simp)
    simp only [javaGo, h0]
    exact ih (fun x hx => h x (by simp [hx]))

theorem goGo_searching_nil (ls : List String) (h : ∀ l ∈ ls, goPanicLine l = none) :
    goGo ls .searching = [] := by
  induction ls with
  | nil => rfl
  | cons l rest ih =>
    have h0 := h l (by simp)
    simp only [goGo, h0]
    exact ih (fun x hx => h x (by simp [hx]))

theorem jsGo_noframes (ls : List String)
    (h : ∀ l ∈ ls, jsAtLine l = none ∧ jsAtSimple l = none) :
    jsGo ls .searching = [] ∧ ∀ t m, jsGo ls (.inFrames t m []) = [] := by
  induction ls with
  | nil => exact ⟨rfl, fun t m => rfl⟩
  | cons l rest ih =>
    obtain ⟨hat, hsi⟩ := h l (by simp)
    have ih2 := ih (fun x hx => h x (by simp [hx]))
    constructor
    · cases he : jsErrorLine l with
      | none => simp only [jsGo, he]; exact ih2.1
      | some tm =>
        obtain ⟨t1, m1⟩ := tm
        simp only [jsGo, he]
        exact ih2.2 t1 m1
    · intro t m
      simp only [jsGo, hat, hsi, List.isEmpty_nil, if_true, List.nil_append]
      exact ih2.1

/-- Claim C7: for every input text in which no line matches any of the four
start patterns, parse_text returns the empty sequence; the scanners are
total functions, so the absence of matches is represented structurally and
no error is raised. -/
theorem c7_no_start_empty (s : String)
    (h : ∀ l ∈ splitNl s.data, pyTracebackStart l = false ∧ jsErrorLine l = none ∧
      javaExceptionLine l = none ∧ goPanicLine l = none) :
    parse_text s = [] := by
  have h1 := pyGo_searching_nil _ (fun l hl => (h l hl).1)
  have h2 := jsGo_searching_nil _ (fun l hl => (h l hl).2.1)
  have h3 := javaGo_searching_nil _ (fun l hl => (h l hl).2.2.1)
  have h4 := goGo_searching_nil _ (fun l hl => (h l hl).2.2.2)
  simp [parse_text, parse_text_lines, parse_python, parse_javascript, parse_java,
    parse_go, h1, h2, h3, h4]

/-- Witness for C7 at a concrete two-line input with no start line. -/
theorem c7_witness :
    (∀ l ∈ splitNl "plain log line\nanother line".data,
      pyTracebackStart l = false ∧ jsErrorLine l = none ∧
        javaExceptionLine l = none ∧ goPanicLine l = none)
    ∧ parse_text "plain log line\nanother line" = [] :=
  ⟨by decide, c7_no_start_empty _ (by decide)⟩

/-- Claim C2 counterexample: on the input consisting of exactly one
RuntimeStackError start line and no frame lines, parse_text is not empty:
the java scanner emits a zero-frame ChainedException record for the same
line, so parse_all does yield a TraceRecord for this input. -/
theorem c2_counterexample :
    parse_text "TypeError: boom" = [⟨"java", some "TypeError", some "boom", [], []⟩] := by
  decide

/-- Claim C2 amended: a RuntimeStackError start line followed by no line
matching either frame pattern yields no record from the javascript scanner
(the minimum-one-frame rule drops the record); parse_all may still return
records from the other scanners, such as the zero-frame ChainedException
record for the same start line. -/
theorem c2_amended (l0 t m : String) (rest : List String)
    (h0 : jsErrorLine l0 = some (t, m))
    (h : ∀ l ∈ rest, jsAtLine l = none ∧ jsAtSimple l = none) :
    parse_javascript (l0 :: rest) = [] := by
  simp only [parse_javascript, jsGo, h0]
  exact (jsGo_noframes rest h).2 t m

/-- Witness for C2 at the concrete dropped record. -/
theorem c2_witness :
    jsErrorLine "TypeError: boom" = some ("TypeError", "boom")
    ∧ (∀ l ∈ ["no frames here"], jsAtLine l = none ∧ jsAtSimple l = none)
    ∧ parse_javascript ["TypeError: boom", "no frames here"] = [] :=
  ⟨by decide, by decide,
    c2_amended "TypeError: boom" "TypeError" "boom" ["no frames here"] (by decide) (by decide)⟩

/-- Claim C3 counterexample: the PanicTrace frame loop does skip past an
arbitrary non-matching, non-header line while no frame has been captured
yet. If the loop had exited at the first such line, this input would
produce no record (zero frames are dropped); instead the scanner skips the
junk line and emits a one-frame record. -/
theorem c3_counterexample :
    parse_text "panic: x\njunk\nmain.foo()\n\t/a.go:1" =
      [⟨"go", none, some "x", [⟨"/a.go", 1, some "main.foo", none, none, none⟩], []⟩] := by
  decide

/-- Claim C3 amended: in the InFrames state the InterpretedTraceback,
RuntimeStackError and ChainedException loops exit at the first line that
matches none of the frame patterns of the grammar (emitting or discarding
per the completeness policy and resuming the search after that line); the
transparent goroutine header of PanicTrace is skipped without ending the
run; the PanicTrace loop, however, exits at such a line only once at least
one frame has been captured, and while the frame list is still empty it
skips any non-matching, non-header line. -/
theorem c3_amended (l : String) (ls : List String) :
    (∀ stack : List StackFrame, pyFileLine l = none →
      ∃ out, pyGo (l :: ls) (.inFrames stack) = out ++ pyGo ls .searching ∧
        out.length ≤ 1)
    ∧ (∀ (t0 m0 : String) (stack : List StackFrame),
        jsAtLine l = none → jsAtSimple l = none →
        ∃ out, jsGo (l :: ls) (.inFrames t0 m0 stack) = out ++ jsGo ls .searching ∧
          out.length ≤ 1)
    ∧ (∀ (t0 m0 : String) (stack : List StackFrame) (causes : List CausedBy),
        javaAtLine l = none → javaCausedBy l = none →
        javaGo (l :: ls) (.inFrames t0 m0 stack causes) =
          [⟨"java", some t0, some m0, stack, causes⟩] ++ javaGo ls .searching)
    ∧ (∀ (m0 : String) (stack : List StackFrame), goroutineMatch l = true →
        goGo (l :: ls) (.inFrames m0 stack none) = goGo ls (.inFrames m0 stack none))
    ∧ (∀ (m0 : String) (stack : List StackFrame),
        goroutineMatch l = false → goFileLine l = none → stack ≠ [] →
        goGo (l :: ls) (.inFrames m0 stack none) =
          [⟨"go", none, some m0, stack, []⟩] ++ goGo ls .searching)
    ∧ (∀ (m0 : String) (stack : List StackFrame),
        goroutineMatch l = false → goFileLine l = none → stack = [] →
        goGo (l :: ls) (.inFrames m0 stack none) = goGo ls (.inFrames m0 stack none)) := by
  refine ⟨?_, ?_, ?_, ?_, ?_, ?_⟩
  · intro stack hf
    cases herr : pyErrorLine l with
    | some tm =>
      obtain ⟨t0, m0⟩ := tm
      exact ⟨[⟨"python", some t0, some m0, stack, []⟩], by simp [pyGo, hf, herr], by simp⟩
    | none =>
      exact ⟨[], by simp [pyGo, hf, herr], by simp⟩
  · intro t0 m0 stack hat hsi
    refine ⟨if stack.isEmpty then [] else [⟨"javascript", some t0, some m0, stack, []⟩],
      by simp [jsGo, hat, hsi], ?_⟩
    cases stack <;> simp
  · intro t0 m0 stack causes hat hcb
    simp [javaGo, hat, hcb]
  · intro m0 stack hg
    cases hloc : goLocation l with
    | none => simp [goGo, hg, hloc]
    | some v => simp [goGo, hg, hloc]
  · intro m0 stack hg hf hs
    cases stack with
    | nil => exact absurd rfl hs
    | cons f fs =>
      cases hloc : goLocation l with
      | none => simp [goGo, hg, hf, hloc]
      | some v => simp [goGo, hg, hf, hloc]
  · intro m0 stack hg hf hs
    subst hs
    cases hloc : goLocation l with
    | none => simp [goGo, hg, hf, hloc]
    | some v => simp [goGo, hg, hf, hloc]

/-- Witness for C3: the PanicTrace conjuncts of the amended rule applied
at a concrete junk line, with and without a captured frame. -/
theorem c3_witness :
    goroutineMatch "junk" = false ∧ goFileLine "junk" = none
    ∧ goGo ["tail"] (.inFrames "x" [⟨"/a.go", 1, some "main.foo", none, none, none⟩] none) =
        [⟨"go", none, some "x", [⟨"/a.go", 1, some "main.foo", none, none, none⟩], []⟩] ++
          goGo [] .searching
    ∧ goGo ["tail"] (.inFrames "x" [] none) = goGo [] (.inFrames "x" [] none) :=
  ⟨by decide, by decide,
    ((c3_amended "junk" ["tail"]).2.2.2.2.1 "x"
      [⟨"/a.go", 1, some "main.foo", none, none, none⟩] (by decide) (by decide)
      (by decide)),
    ((c3_amended "junk" ["tail"]).2.2.2.2.2 "x" [] (by decide) (by decide) rfl)⟩

/- Nonnegativity of frame line numbers, by functional induction over each
scanner: every frame ever appended carries the value of a digit run. -/

theorem pyGo_nonneg (ls : List String) (mode : PyMode) :
    (∀ stack, mode = .inFrames stack → framesNonneg stack) →
    ∀ t ∈ pyGo ls mode, framesNonneg t.stack := by
  induction ls, mode using pyGo.induct with
  | case1 mode =>
    intro hm t ht
    simp [pyGo] at ht
  | case2 l rest hstart ih =>
    intro hm t ht
    simp only [pyGo, hstart, if_true] at ht
    refine ih ?_ t ht
    intro s hs
    cases hs
    intro fr hfr
    simp at hfr
  | case3 l rest hstart ih =>
    intro hm t ht
    simp only [pyGo, if_neg hstart] at ht
    exact ih (fun s hs => nomatch hs) t ht
  | case4 l stack f n fn hfile l2 rest2 ih =>
    intro hm t ht
    simp only [pyGo, hfile] at ht
    refine ih ?_ t ht
    intro s hs
    cases hs
    intro fr hfr
    rcases List.mem_append.mp hfr with h1 | h2
    · exact hm stack rfl fr h1
    · rw [List.mem_singleton] at h2
      subst h2
      exact Int.natCast_nonneg n
  | case5 l stack f n fn hfile =>
    intro hm t ht
    simp [pyGo, hfile] at ht
  | case6 l rest stack hfile t0 m0 herr ih =>
    intro hm t ht
    simp only [pyGo, hfile, herr] at ht
    rcases List.mem_cons.mp ht with h1 | h2
    · subst h1
      exact hm stack rfl
    · exact ih (fun s hs => nomatch hs) t h2
  | case7 l rest stack hfile herr ih =>
    intro hm t ht
    simp only [pyGo, hfile, herr] at ht
    exact ih (fun s hs => nomatch hs) t ht

theorem jsGo_nonneg (ls : List String) (mode : JsMode) :
    (∀ t0 m0 stack, mode = .inFrames t0 m0 stack → framesNonneg stack) →
    ∀ t ∈ jsGo ls mode, framesNonneg t.stack := by
  induction ls, mode using jsGo.induct with
  | case1 =>
    intro hm t ht
    simp [jsGo] at ht
  | case2 t0 m0 stack he =>
    intro hm t ht
    simp [jsGo, he] at ht
  | case3 t0 m0 stack he =>
    intro hm t ht
    simp only [jsGo, if_neg he] at ht
    rw [List.mem_singleton] at ht
    subst ht
    exact hm t0 m0 stack rfl
  | case4 l rest t0 m0 herr ih =>
    intro hm t ht
    simp only [jsGo, herr] at ht
    refine ih ?_ t ht
    intro a b s hs
    cases hs
    intro fr hfr
    simp at hfr
  | case5 l rest herr ih =>
    intro hm t ht
    simp only [jsGo, herr] at ht
    exact ih (fun a b s hs => nomatch hs) t ht
  | case6 l rest t0 m0 stack fn f ln col hat ih =>
    intro hm t ht
    simp only [jsGo, hat] at ht
    refine ih ?_ t ht
    intro a b s hs
    cases hs
    intro fr hfr
    rcases List.mem_append.mp hfr with h1 | h2
    · exact hm t0 m0 stack rfl fr h1
    · rw [List.mem_singleton] at h2
      subst h2
      exact Int.natCast_nonneg ln
  | case7 l rest t0 m0 stack hat f ln col hsi ih =>
    intro hm t ht
    simp only [jsGo, hat, hsi] at ht
    refine ih ?_ t ht
    intro a b s hs
    cases hs
    intro fr hfr
    rcases List.mem_append.mp hfr with h1 | h2
    · exact hm t0 m0 stack rfl fr h1
    · rw [List.mem_singleton] at h2
      subst h2
      exact Int.natCast_nonneg ln
  | case8 l rest t0 m0 stack hat hsi ih =>
    intro hm t ht
    simp only [jsGo, hat, hsi] at ht
    rcases List.mem_append.mp ht with h1 | h2
    · by_cases hse : stack.isEmpty = true
      · rw [if_pos hse] at h1
        simp at h1
      · rw [if_neg hse] at h1
        rw [List.mem_singleton] at h1
        subst h1
        exact hm t0 m0 stack rfl
    · exact ih (fun a b s hs => nomatch hs) t h2

theorem javaGo_nonneg (ls : List String) (mode : JavaMode) :
    (∀ t0 m0 stack causes, mode = .inFrames t0 m0 stack causes → framesNonneg stack) →
    ∀ t ∈ javaGo ls mode, framesNonneg t.stack := by
  induction ls, mode using javaGo.induct with
  | case1 =>
    intro hm t ht
    simp [javaGo] at ht
  | case2 t0 m0 stack causes =>
    intro hm t ht
    simp only [javaGo] at ht
    rw [List.mem_singleton] at ht
    subst ht
    exact hm t0 m0 stack causes rfl
  | case3 l rest t0 m0 hexc ih =>
    intro hm t ht
    simp only [javaGo, hexc] at ht
    refine ih ?_ t ht
    intro a b s cs hs
    cases hs
    intro fr hfr
    simp at hfr
  | case4 l rest hexc ih =>
    intro hm t ht
    simp only [javaGo, hexc] at ht
    exact ih (fun a b s cs hs => nomatch hs) t ht
  | case5 l rest t0 m0 stack causes mth f n hat ih =>
    intro hm t ht
    simp only [javaGo, hat] at ht
    refine ih ?_ t ht
    intro a b s cs hs
    cases hs
    intro fr hfr
    rcases List.mem_append.mp hfr with h1 | h2
    · exact hm t0 m0 stack causes rfl fr h1
    · rw [List.mem_singleton] at h2
      subst h2
      exact Int.natCast_nonneg n
  | case6 l rest t0 m0 stack causes hat ct cm hcb ih =>
    intro hm t ht
    simp only [javaGo, hat, hcb] at ht
    refine ih ?_ t ht
    intro a b s cs hs
    cases hs
    exact hm t0 m0 stack causes rfl
  | case7 l rest t0 m0 stack causes hat hcb ih =>
    intro hm t ht
    simp only [javaGo, hat, hcb] at ht
    rcases List.mem_cons.mp ht with h1 | h2
    · subst h1
      exact hm t0 m0 stack causes rfl
    · exact ih (fun a b s cs hs => nomatch hs) t h2

theorem goGo_nonneg (ls : List String) (mode : GoMode) :
    (∀ m0 stack p, mode = .inFrames m0 stack p → framesNonneg stack) →
    ∀ t ∈ goGo ls mode, framesNonneg t.stack := by
  induction ls, mode using goGo.induct with
  | case1 =>
    intro hm t ht
    simp [goGo] at ht
  | case2 m0 stack p he =>
    intro hm t ht
    simp [goGo, he] at ht
  | case3 m0 stack p he =>
    intro hm t ht
    simp only [goGo, if_neg he] at ht
    rw [List.mem_singleton] at ht
    subst ht
    exact hm m0 stack p rfl
  | case4 l rest m0 hp ih =>
    intro hm t ht
    simp only [goGo, hp] at ht
    refine ih ?_ t ht
    intro a s p hs
    cases hs
    intro fr hfr
    simp at hfr
  | case5 l rest hp ih =>
    intro hm t ht
    simp only [goGo, hp] at ht
    exact ih (fun a s p hs => nomatch hs) t ht
  | case6 l rest m0 stack fn f n hloc ih =>
    intro hm t ht
    simp only [goGo, hloc] at ht
    refine ih ?_ t ht
    intro a s p hs
    cases hs
    intro fr hfr
    rcases List.mem_append.mp hfr with h1 | h2
    · exact hm m0 stack (some fn) rfl fr h1
    · rw [List.mem_singleton] at h2
      subst h2
      exact Int.natCast_nonneg n
  | case7 l rest m0 stack p hg hneg ih =>
    intro hm t ht
    simp only [goGo] at ht
    rw [if_pos hg] at ht
    exact ih (fun a s q hs => by cases hs; exact hm m0 stack p rfl) t ht
  | case8 l rest m0 stack p hg fn2 hfile hneg ih =>
    intro hm t ht
    simp only [goGo] at ht
    rw [if_neg hg] at ht
    simp only [hfile] at ht
    exact ih (fun a s q hs => by cases hs; exact hm m0 stack p rfl) t ht
  | case9 l rest m0 stack p hg hfile he hneg ih =>
    intro hm t ht
    simp only [goGo] at ht
    rw [if_neg hg] at ht
    simp only [hfile, if_pos he] at ht
    exact ih (fun a s q hs => by cases hs; exact hm m0 stack p rfl) t ht
  | case10 l rest m0 stack p hg hfile he hneg ih =>
    intro hm t ht
    simp only [goGo] at ht
    rw [if_neg hg] at ht
    simp only [hfile, if_neg he] at ht
    rcases List.mem_cons.mp ht with h1 | h2
    · subst h1
      exact hm m0 stack p rfl
    · exact ih (fun a s q hs => nomatch hs) t h2

/-- Claim C4 counterexample: a RuntimeStackError frame whose digit run is
a zero produces a StackFrame with line number zero, violating the claimed
lower bound of one. -/
theorem c4_counterexample :
    ∃ t ∈ parse_text "TypeError: x\n    at fn (a.js:0:5)", ∃ f ∈ t.stack, f.line < 1 := by
  decide

/-- Claim C4 amended: every StackFrame of every TraceRecord emitted by
parse_text carries a nonnegative line number (the value of a digit run);
the stronger bound of one fails because a zero digit run is accepted. -/
theorem c4_amended (s : String) (t : TraceRecord) (f : StackFrame)
    (ht : t ∈ parse_text s) (hf : f ∈ t.stack) : 0 ≤ f.line := by
  simp only [parse_text, parse_text_lines, parse_python, parse_javascript, parse_java,
    parse_go] at ht
  rcases List.mem_append.mp ht with h1 | h4
  rcases List.mem_append.mp h1 with h2 | h3
  rcases List.mem_append.mp h2 with hpy | hjs
  · exact pyGo_nonneg _ .searching (fun a hs => nomatch hs) t hpy f hf
  · exact jsGo_nonneg _ .searching (fun a b c hs => nomatch hs) t hjs f hf
  · exact javaGo_nonneg _ .searching (fun a b c d hs => nomatch hs) t h3 f hf
  · exact goGo_nonneg _ .searching (fun a b c hs => nomatch hs) t h4 f hf

/-- Witness for C4 at the concrete one-record input. -/
theorem c4_witness :
    (⟨"javascript", some "TypeError", some "x",
        [⟨"a.js", 0, some "fn", some 5, none, none⟩], []⟩ : TraceRecord) ∈
      parse_text "TypeError: x\n    at fn (a.js:0:5)"
    ∧ (⟨"a.js", 0, some "fn", some 5, none, none⟩ : StackFrame) ∈
        [(⟨"a.js", 0, some "fn", some 5, none, none⟩ : StackFrame)]
    ∧ (0 : Int) ≤ (⟨"a.js", 0, some "fn", some 5, none, none⟩ : StackFrame).line :=
  ⟨by decide, by decide,
    c4_amended "TypeError: x\n    at fn (a.js:0:5)"
      ⟨"javascript", some "TypeError", some "x",
        [⟨"a.js", 0, some "fn", some 5, none, none⟩], []⟩
      ⟨"a.js", 0, some "fn", some 5, none, none⟩ (by decide) (by decide)⟩

/-- Claim C1 counterexample: this input is the concatenation of one valid
example of each of the four formats, separated by blank lines, yet
parse_text returns five records rather than four: the RuntimeStackError
start line also satisfies the ChainedException start pattern, and with no
minimum-frame rule for that grammar an extra zero-frame java record is
emitted. -/
theorem c1_counterexample :
    (parse_text ("Traceback (most recent call last):\n  File \"app.py\", line 10, in main\n    run()\nDeprecationWarning: old api\n\nTypeError: x is not a function\n    at foo (app.js:5:10)\n\nMyException: boom\n    at com.Foo.bar(Foo.java:7)\n\npanic: oops\ngoroutine 1 [running]:\nmain.crash()\n\t/app/main.go:12")).map
        (fun t => t.language) =
      ["python", "javascript", "java", "java", "go"] := by
  decide

/-- Claim C1 amended: parse_text concatenates the per-grammar results in
the fixed ecosystem order InterpretedTraceback, RuntimeStackError,
ChainedException, PanicTrace; an input with one valid example of each
format yields exactly these four records provided no line of one example
is also matched by another grammar as a fresh start line, as here, where
the RuntimeStackError example directly follows the ChainedException frames
so the java scanner consumes its start line as the record terminator. -/
theorem c1_amended :
    parse_text ("Traceback (most recent call last):\n  File \"app.py\", line 10, in main\n    run()\nDeprecationWarning: old api\n\nMyException: boom\n    at com.Foo.bar(Foo.java:7)\nTypeError: x is not a function\n    at foo (app.js:5:10)\n\npanic: oops\ngoroutine 1 [running]:\nmain.crash()\n\t/app/main.go:12") =
      [⟨"python", some "DeprecationWarning", some "old api",
          [⟨"app.py", 10, some "main", none, none, some "run()"⟩], []⟩,
        ⟨"javascript", some "TypeError", some "x is not a function",
          [⟨"app.js", 5, some "foo", some 10, none, none⟩], []⟩,
        ⟨"java", some "MyException", some "boom",
          [⟨"Foo.java", 7, none, none, some "com.Foo.bar", none⟩], []⟩,
        ⟨"go", none, some "oops",
          [⟨"/app/main.go", 12, some "main.crash", none, none, none⟩], []⟩] := by
  decide

/- The python frame loop emits exactly when the line ending it matches the
trailer pattern. -/

theorem pyGo_inFrames_iff (ls : List String) :
    ∀ stack : List StackFrame, (∀ l ∈ ls, pyTracebackStart l = false) →
      (pyGo ls (.inFrames stack) ≠ [] ↔
        ∃ e, pyLoopEnd ls = some e ∧ (pyErrorLine e).isSome) := by
  induction ls using pyLoopEnd.induct with
  | case1 =>
    intro stack hns
    simp [pyGo, pyLoopEnd]
  | case2 l hs =>
    intro stack hns
    rw [Option.isSome_iff_exists] at hs
    obtain ⟨⟨f, n, fn⟩, hv⟩ := hs
    simp [pyGo, pyLoopEnd, hv]
  | case3 l hs =>
    intro stack hns
    rw [Option.not_isSome_iff_eq_none] at hs
    cases herr : pyErrorLine l with
    | some tm =>
      obtain ⟨t0, m0⟩ := tm
      simp only [pyGo, pyLoopEnd, hs, herr, Option.isSome_none, Bool.false_eq_true,
        if_false, ne_eq]
      constructor
      · intro _
        exact ⟨l, rfl, by simp [herr]⟩
      · intro _
        simp
    | none =>
      simp only [pyGo, pyLoopEnd, hs, herr, Option.isSome_none, Bool.false_eq_true,
        if_false, ne_eq]
      constructor
      · intro h
        simp at h
      · rintro ⟨e, he, hsome⟩
        rw [Option.some_inj] at he
        subst he
        rw [herr] at hsome
        simp at hsome
  | case4 l l2 rest2 hs ih =>
    intro stack hns
    rw [Option.isSome_iff_exists] at hs
    obtain ⟨⟨f, n, fn⟩, hv⟩ := hs
    simp only [pyGo, pyLoopEnd, hv, Option.isSome_some, if_true]
    exact ih _ (fun x hx => hns x (by simp [hx]))
  | case5 l l2 rest2 hs =>
    intro stack hns
    rw [Option.not_isSome_iff_eq_none] at hs
    cases herr : pyErrorLine l with
    | some tm =>
      obtain ⟨t0, m0⟩ := tm
      simp only [pyGo, pyLoopEnd, hs, herr, Option.isSome_none, Bool.false_eq_true,
        if_false, ne_eq]
      constructor
      · intro _
        exact ⟨l, rfl, by simp [herr]⟩
      · intro _
        simp
    | none =>
      have hnil : pyGo (l2 :: rest2) .searching = [] :=
        pyGo_searching_nil _ (fun x hx => hns x (List.mem_cons_of_mem _ hx))
      simp only [pyGo] at hnil
      simp only [pyGo, pyLoopEnd, hs, herr, hnil, Option.isSome_none, Bool.false_eq_true,
        if_false, ne_eq]
      constructor
      · intro h
        simp at h
      · rintro ⟨e, he, hsome⟩
        rw [Option.some_inj] at he
        subst he
        rw [herr] at hsome
        simp at hsome

/-- Claim C5: after a start line, the InterpretedTraceback scanner emits a
record exactly when the line that ends the frame loop exists and matches
the trailer pattern; a frame run ending without such a line (including by
input exhaustion) is silently discarded regardless of how many frames were
captured, and no error is raised (the scanner is a total function). The
hypothesis confines the input to one candidate record. -/
theorem c5_trailer_iff (l0 : String) (rest : List String)
    (h0 : pyTracebackStart l0 = true)
    (hns : ∀ l ∈ rest, pyTracebackStart l = false) :
    parse_python (l0 :: rest) ≠ [] ↔
      ∃ e, pyLoopEnd rest = some e ∧ (pyErrorLine e).isSome := by
  simp only [parse_python, pyGo, h0, if_true]
  exact pyGo_inFrames_iff rest [] hns

/-- Witness for C5: with a trailer the record is kept, and the iff applied
at an input without a trailer shows the silent drop. -/
theorem c5_witness :
    pyTracebackStart "Traceback (most recent call last):" = true
    ∧ (∀ l ∈ ["  File \"a.py\", line 3, in f", "    boom()", "junk"],
        pyTracebackStart l = false)
    ∧ (parse_python ["Traceback (most recent call last):",
        "  File \"a.py\", line 3, in f", "    boom()", "junk"] ≠ [] ↔
      ∃ e, pyLoopEnd ["  File \"a.py\", line 3, in f", "    boom()", "junk"] = some e ∧
        (pyErrorLine e).isSome) :=
  ⟨by decide, by decide,
    c5_trailer_iff "Traceback (most recent call last):"
      ["  File \"a.py\", line 3, in f", "    boom()", "junk"] (by decide) (by decide)⟩

/-- Word characters are never whitespace characters. -/
theorem isSpaceChar_false_of_word (c : Char) (h : isWordChar c = true) :
    isSpaceChar c = false := by
  by_contra hs
  rw [Bool.not_eq_false] at hs
  have hs2 : c = ' ' ∨ c = '\t' ∨ c = '\n' ∨ c = '\r' ∨ c = '\x0b' ∨ c = '\x0c' := by
    simpa [isSpaceChar, or_assoc] using hs
  rcases hs2 with h1 | h1 | h1 | h1 | h1 | h1 <;> subst h1 <;> exact absurd h (by decide)

/-- Claim C6: a ChainedException start line immediately followed by a
caused-by line, with no frame lines after either, parses to exactly one
TraceRecord with an empty frame sequence and exactly one CausedBy entry
carrying the matched cause type and message; the ChainedException grammar
imposes no minimum-frame requirement. -/
theorem c6_chained_zero_frames (l0 l1 : String) (t0 m0 ct cm : String)
    (h0 : javaExceptionLine l0 = some (t0, m0))
    (h1 : javaCausedBy l1 = some (ct, cm)) :
    parse_text_lines [l0, l1] = [⟨"java", some t0, some m0, [], [⟨ct, cm⟩]⟩] := by
  obtain ⟨r1, hr1⟩ := javaCausedBy_data l1 (ct, cm) h1
  have hd1 : l1.data = 'C' :: ("aused by: ".data ++ r1) := by rw [hr1]; rfl
  have hpy1 : pyTracebackStart l1 = false :=
    pyTracebackStart_false_of_head l1 'C' _ hd1 (by decide)
  have hgo1 : goPanicLine l1 = none :=
    goPanicLine_none_of_head l1 'C' _ hd1 (by decide)
  have hat1 : javaAtLine l1 = none :=
    javaAtLine_none_of_head l1 'C' _ hd1 (by decide)
  have hjat1 : jsAtLine l1 = none :=
    jsAtLine_none_of_head l1 'C' _ hd1 (by decide)
  have hjsi1 : jsAtSimple l1 = none :=
    jsAtSimple_none_of_head l1 'C' _ hd1 (by decide)
  have hjse1 : jsErrorLine l1 = none := by
    have he : l1.data = "Caused".data ++ ' ' :: ("by: ".data ++ r1) := by rw [hr1]; rfl
    simp only [jsErrorLine, typeMsgMatch, he]
    rw [spanP_break isWordChar "Caused".data ' ' _ (by decide) (by decide)]
    have hh1 : (("Caused".data : List Char)).isEmpty = false := by decide
    have hh2 : endsWithP "Caused".data "Error".data = false := by decide
    simp [hh1, hh2]
  have hpy0 : pyTracebackStart l0 = false := by
    cases hh : pyTracebackStart l0 with
    | true => exact absurd (javaExc_none_of_traceback l0 hh) (by simp [h0])
    | false => rfl
  have hgo0 : goPanicLine l0 = none := by
    cases hp : goPanicLine l0 with
    | none => rfl
    | some m => exact absurd (javaExc_none_of_panic l0 m hp) (by simp [h0])
  have hpyend : parse_python [l0, l1] = [] := by
    simp [parse_python, pyGo, hpy0, hpy1]
  have hjsend : parse_javascript [l0, l1] = [] := by
    cases hje : jsErrorLine l0 with
    | some tm =>
      obtain ⟨a, b⟩ := tm
      simp [parse_javascript, jsGo, hje, hjat1, hjsi1]
    | none =>
      simp [parse_javascript, jsGo, hje, hjse1]
  have hgoend : parse_go [l0, l1] = [] := by
    simp [parse_go, goGo, hgo0, hgo1]
  have hjavaend : parse_java [l0, l1] = [⟨"java", some t0, some m0, [], [⟨ct, cm⟩]⟩] := by
    simp [parse_java, javaGo, h0, hat1, h1]
  simp [parse_text_lines, hpyend, hjsend, hjavaend, hgoend]

/-- Witness for C6 at a concrete chained exception. -/
theorem c6_witness :
    javaExceptionLine "java.lang.RuntimeException: boom" =
        some ("java.lang.RuntimeException", "boom")
    ∧ javaCausedBy "Caused by: java.io.IOException: disk" =
        some ("java.io.IOException", "disk")
    ∧ parse_text_lines ["java.lang.RuntimeException: boom",
        "Caused by: java.io.IOException: disk"] =
      [⟨"java", some "java.lang.RuntimeException", some "boom", [],
        [⟨"java.io.IOException", "disk"⟩]⟩] :=
  ⟨by decide, by decide,
    c6_chained_zero_frames "java.lang.RuntimeException: boom"
      "Caused by: java.io.IOException: disk" "java.lang.RuntimeException" "boom"
      "java.io.IOException" "disk" (by decide) (by decide)⟩

/-- Claim C10: in the InterpretedTraceback scanner a line matching the
frame declaration pattern unconditionally consumes the immediately
following line as its source snippet, even when that following line itself
matches the frame declaration pattern: of two consecutive declaration
lines only the first becomes a StackFrame, and the second is stored,
stripped, as its snippet text. -/
theorem c10_consecutive_frame_lines (l1 l2 tl : String) (f : String) (n : Nat)
    (g t0 m0 : String)
    (h1 : pyFileLine l1 = some (f, n, g)) (h2 : (pyFileLine l2).isSome)
    (ht : pyErrorLine tl = some (t0, m0)) :
    parse_python ["Traceback (most recent call last):", l1, l2, tl] =
      [⟨"python", some t0, some m0,
        [⟨f, (n : Int), some g, none, none, some (pyStrip l2)⟩], []⟩] := by
  obtain ⟨c, tt, hd, hw⟩ := typeMsgMatch_head isWordChar
    ["Error".data, "Exception".data, "Warning".data] tl.data (t0, m0) ht
  have hft : pyFileLine tl = none :=
    pyFileLine_none_of_head tl c tt hd (isSpaceChar_false_of_word c hw)
  have hst : pyTracebackStart "Traceback (most recent call last):" = true := by decide
  simp [parse_python, pyGo, hst, h1, hft, ht]

/-- Witness for C10 at two consecutive declaration lines. -/
theorem c10_witness :
    pyFileLine "  File \"a.py\", line 3, in f" = some ("a.py", 3, "f")
    ∧ (pyFileLine "  File \"b.py\", line 4, in g").isSome
    ∧ pyErrorLine "ValueError: bad" = some ("ValueError", "bad")
    ∧ parse_python ["Traceback (most recent call last):",
        "  File \"a.py\", line 3, in f", "  File \"b.py\", line 4, in g",
        "ValueError: bad"] =
      [⟨"python", some "ValueError", some "bad",
        [⟨"a.py", 3, some "f", none, none,
          some (pyStrip "  File \"b.py\", line 4, in g")⟩], []⟩] :=
  ⟨by decide, by decide, by decide,
    c10_consecutive_frame_lines "  File \"a.py\", line 3, in f"
      "  File \"b.py\", line 4, in g" "ValueError: bad" "a.py" 3 "f" "ValueError" "bad"
      (by decide) (by decide) (by decide)⟩

/- Counter bookkeeping for the log analyzer. -/

theorem sumVals_incr (m : List (String × Nat)) (k : String) :
    sumVals (incr m k) = sumVals m + 1 := by
  induction m with
  | nil => simp [incr, sumVals]
  | cons p t ih =>
    obtain ⟨k2, v⟩ := p
    by_cases hk : k2 = k
    · simp [incr, hk, sumVals]
      omega
    · simp only [incr, if_neg hk, sumVals, List.map_cons, List.sum_cons]
      have := ih
      simp only [sumVals] at this
      omega

theorem analyzeLoop_sums (pat : Option String) (ls : List String) :
    ∀ (i : Nat) (errs warns : List (String × Nat)) (hits : List (Nat × String))
      (tss : List String),
      sumVals (analyzeLoop pat i errs warns hits tss ls).1 =
          sumVals errs + ls.countP error_search
        ∧ sumVals (analyzeLoop pat i errs warns hits tss ls).2.1 =
          sumVals warns + ls.countP warning_search := by
  induction ls with
  | nil =>
    intro i e w h t
    simp [analyzeLoop]
  | cons l rest ih =>
    intro i e w h t
    simp only [analyzeLoop]
    rw [List.countP_cons, List.countP_cons]
    cases he : error_search l with
    | true =>
      cases hw : warning_search l with
      | true =>
        simp only [he, hw, if_true]
        obtain ⟨ha, hb⟩ := ih (i + 1) (incr e (extract_error_message l))
          (incr w (extract_error_message l)) _ _
        rw [ha, hb, sumVals_incr, sumVals_incr]
        omega
      | false =>
        simp only [he, hw, if_true, Bool.false_eq_true, if_false]
        obtain ⟨ha, hb⟩ := ih (i + 1) (incr e (extract_error_message l)) w _ _
        rw [ha, hb, sumVals_incr]
        omega
    | false =>
      cases hw : warning_search l with
      | true =>
        simp only [he, hw, if_true, Bool.false_eq_true, if_false]
        obtain ⟨ha, hb⟩ := ih (i + 1) e (incr w (extract_error_message l)) _ _
        rw [ha, hb, sumVals_incr]
        omega
      | false =>
        simp only [he, hw, Bool.false_eq_true, if_false]
        obtain ⟨ha, hb⟩ := ih (i + 1) e w _ _
        rw [ha, hb]
        omega

/-- Claim C8: for every input and optional custom pattern, the sum of the
values in the errors mapping equals the number of lines matched by the
case-insensitive error severity pattern, and the sum of the values in the
warnings mapping equals the number of lines matched by the warning
pattern. -/
theorem c8_severity_sums (lines : List String) (pat : Option String) :
    sumVals (analyze_file_lines lines pat).errors = lines.countP error_search
    ∧ sumVals (analyze_file_lines lines pat).warnings = lines.countP warning_search := by
  have h := analyzeLoop_sums pat lines 1 [] [] [] []
  simpa [analyze_file_lines, sumVals] using h

/-- Claim C9: the normalization maps the two dated lines to the same key,
and analyzing exactly these two lines yields an errors mapping with that
single key counted twice. -/
theorem c9_normalization_merges :
    extract_error_message "2024-01-01T00:00:00 ERROR [svc] disk full" =
        extract_error_message "2024-01-02T00:00:00 ERROR [svc] disk full"
    ∧ (analyze_file_lines ["2024-01-01T00:00:00 ERROR [svc] disk full",
        "2024-01-02T00:00:00 ERROR [svc] disk full"] none).errors =
      [("disk full", 2)] :=
  ⟨by decide, by decide⟩
